import Mathlib

/-!
Shallow embedding of `src/src/commit.cc` from node-gitteh: the `Commit`
wrapper operations (`Save`, `AddParent`, `SetTree`, `GetTree`, `GetParent`
with its worker-thread halves `EIO_GetParent` / `EIO_AfterGetParent`) and
the two-phase load (`loadInitData` / `processInitData`).

Backend (libgit2) calls, lock acquisitions, reference counting, thrown
errors, callback invocations and field publications are recorded as an
event trace, tagged with the thread they run on and whether the
RepositoryLock is held at that point, read off directly from the C++
control flow.
-/

set_option autoImplicit false

namespace Gitteh

/-- Thread on which an event happens: the frontend (caller / event-loop)
thread or an eio worker thread. -/
inductive Thread where
  | frontend
  | worker
deriving Repr, DecidableEq

/-- A git signature (`git_signature`): name, email, time. -/
structure GitSignature where
  name : String
  email : String
  time : Int
deriving Repr, DecidableEq

/-- Commit/tree identity: a 40-hex-character oid string. -/
abbrev Oid := String

/-- Backend (libgit2) calls made by `commit.cc`, as they appear at the call
sites. `setTreeCall valid` records `git_commit_set_tree`; `valid = false`
marks the call made with the uninitialized `tree` local (the fall-through
in `Commit::SetTree` when the argument is neither a string nor a Tree). -/
inductive BCall where
  | getId
  | getMessage
  | getAuthor
  | getCommitter
  | getParentCount
  | commitTree
  | commitParent (idx : Int)
  | oidMkstr (s : String)
  | commitLookup (id : Oid)
  | treeLookup (id : Oid)
  | setMessage
  | setCommitter
  | setAuthor
  | setTreeCall (validOperand : Bool)
  | addParentCall
  | objectWrite
deriving Repr, DecidableEq

/-- An event in the execution of a wrapper operation. -/
inductive Ev where
  | call (c : BCall) (lockHeld : Bool) (t : Thread)
  | lockAcquire (t : Thread)
  | lockRelease (t : Thread)
  | throwErr (t : Thread)
  | refInc
  | refDec
  | cbInvoke (isError : Bool) (t : Thread)
  | publish (field : String) (lockHeld : Bool)
deriving Repr, DecidableEq

/-- Error taxonomy of the design (section 7 of the design document). -/
inductive ErrKind where
  | notFound
  | invalidArgument
  | validationFailed
  | backendError
deriving Repr, DecidableEq

/-- A thrown error: its taxonomy kind and the message from the source. -/
structure Err where
  kind : ErrKind
  msg : String
deriving Repr, DecidableEq

/-- Fields the load step copies out of the backend (`commit_data`). -/
structure CommitData where
  id : String
  message : String
  author : GitSignature
  committer : GitSignature
  parentCount : Int
deriving Repr, DecidableEq

/-- The backend repository state visible to one commit wrapper: results the
libgit2 calls would return. `addParentResult` is the return value of
`git_commit_add_parent`, `writeResult` is `some id` when `git_object_write`
succeeds and assigns identity `id`, else `none`. -/
structure Backend where
  fields : CommitData
  commitTree : Option Oid
  commitParent : Int → Option Nat
  oidParse : String → Option Oid
  commitLookup : Oid → Option Nat
  treeLookup : Oid → Option Nat
  writeResult : Option Oid
  addParentResult : Int

/-- The JS-visible state of a commit wrapper: the `id`, `message`,
`author`, `committer` properties and the `parentCount_` member mirrored by
the `parentCount` property. -/
structure Wrapper where
  id : Option Oid
  message : Option String
  author : Option GitSignature
  committer : Option GitSignature
  parentCount : Int
deriving Repr, DecidableEq

/-- Result of a wrapper operation: the error it threw (if any), the
wrapper state after the call, and the event trace. -/
structure OpResult where
  error : Option Err
  wrapper : Wrapper
  trace : List Ev
deriving Repr, DecidableEq

/-- Commit::Save. Modelled from the spec for the two macros whose
definitions live in a header not present under src/: `CHECK_PROPERTY`
throws a validation error when the required property is absent, and
`GET_SIGNATURE_PROPERTY` yields the signature, throwing a validation error
when it is absent or malformed (a missing signature is the malformed case
representable here). The rest follows `commit.cc` lines 282-310: empty
message check, then `git_commit_set_message` / `set_committer` /
`set_author`, then `git_object_write`; on success `git_commit_id` is read
and the `id` property force-set. No lock is taken anywhere in `Save`. -/
def save (w : Wrapper) (b : Backend) : OpResult :=
  match w.message with
  | none => ⟨some ⟨.validationFailed, "required property message is missing"⟩, w,
      [.throwErr .frontend]⟩
  | some msg =>
    if msg.length = 0 then
      ⟨some ⟨.validationFailed, "Message must not be empty."⟩, w, [.throwErr .frontend]⟩
    else
      match w.author with
      | none => ⟨some ⟨.validationFailed, "required property author is missing"⟩, w,
          [.throwErr .frontend]⟩
      | some _ =>
        match w.committer with
        | none => ⟨some ⟨.validationFailed, "required property committer is missing"⟩, w,
            [.throwErr .frontend]⟩
        | some _ =>
          let pre : List Ev :=
            [.call .setMessage false .frontend,
             .call .setCommitter false .frontend,
             .call .setAuthor false .frontend,
             .call .objectWrite false .frontend]
          match b.writeResult with
          | none =>
            ⟨some ⟨.backendError, "Failed to save commit object."⟩, w,
              pre ++ [.throwErr .frontend]⟩
          | some oid =>
            ⟨none, { w with id := some oid }, pre ++ [.call .getId false .frontend]⟩

/-- Argument value for the polymorphic parameters of `SetTree` and
`AddParent`: a raw id string, a Commit wrapper instance, a Tree wrapper
instance, or anything else (number, null, plain object). -/
inductive EntityArg where
  | str (s : String)
  | commitWrapper (h : Nat)
  | treeWrapper (h : Nat)
  | other
deriving Repr, DecidableEq

/-- Commit::AddParent (`commit.cc` lines 248-280): string arguments go
through `git_oid_mkstr` and `git_commit_lookup`; Commit wrapper arguments
are unwrapped; anything else throws "Invalid argument." before any backend
mutation. When a parent handle was obtained, `git_commit_add_parent` is
invoked (its return value is discarded by the source) and `parentCount_`
is incremented and force-set, unconditionally. -/
def addParent (w : Wrapper) (arg : EntityArg) (b : Backend) : OpResult :=
  match arg with
  | .str s =>
    match b.oidParse s with
    | none =>
      ⟨some ⟨.invalidArgument, "Id is invalid"⟩, w,
        [.call (.oidMkstr s) false .frontend, .throwErr .frontend]⟩
    | some oid =>
      match b.commitLookup oid with
      | none =>
        ⟨some ⟨.notFound, "Error locating commit"⟩, w,
          [.call (.oidMkstr s) false .frontend,
           .call (.commitLookup oid) false .frontend, .throwErr .frontend]⟩
      | some _ =>
        ⟨none, { w with parentCount := w.parentCount + 1 },
          [.call (.oidMkstr s) false .frontend,
           .call (.commitLookup oid) false .frontend,
           .call .addParentCall false .frontend]⟩
  | .commitWrapper _ =>
    ⟨none, { w with parentCount := w.parentCount + 1 },
      [.call .addParentCall false .frontend]⟩
  | _ =>
    ⟨some ⟨.invalidArgument, "Invalid argument."⟩, w, [.throwErr .frontend]⟩

/-- Commit::SetTree (`commit.cc` lines 120-145): string arguments go
through `git_oid_mkstr` and `git_tree_lookup`; Tree wrapper arguments are
unwrapped. There is no final else branch: for any other argument the
function falls through with the local `tree` pointer left uninitialized and
still calls `git_commit_set_tree`, throwing nothing. That call is recorded
as `setTreeCall false`. -/
def setTree (w : Wrapper) (arg : EntityArg) (b : Backend) : OpResult :=
  match arg with
  | .str s =>
    match b.oidParse s with
    | none =>
      ⟨some ⟨.invalidArgument, "Id is invalid"⟩, w,
        [.call (.oidMkstr s) false .frontend, .throwErr .frontend]⟩
    | some oid =>
      match b.treeLookup oid with
      | none =>
        ⟨some ⟨.notFound, "Error locating tree"⟩, w,
          [.call (.oidMkstr s) false .frontend,
           .call (.treeLookup oid) false .frontend, .throwErr .frontend]⟩
      | some _ =>
        ⟨none, w,
          [.call (.oidMkstr s) false .frontend,
           .call (.treeLookup oid) false .frontend,
           .call (.setTreeCall true) false .frontend]⟩
  | .treeWrapper _ =>
    ⟨none, w, [.call (.setTreeCall true) false .frontend]⟩
  | _ =>
    ⟨none, w, [.call (.setTreeCall false) false .frontend]⟩

/-- Commit::GetTree (`commit.cc` lines 106-118): calls `git_commit_tree`
with no lock taken; returns null for a null tree, else the tree via the
factory. -/
def getTree (w : Wrapper) (b : Backend) : Option Oid × List Ev :=
  let _ := w
  (b.commitTree, [.call .commitTree false .frontend])

/-- Commit::EIO_GetParent (`commit.cc` lines 187-195), the worker-thread
half of a deferred getParent: lock, `git_commit_parent`, unlock, store the
result in the request record. It never throws. -/
def eioGetParent (idx : Int) (b : Backend) : Option Nat × List Ev :=
  (b.commitParent idx,
   [.lockAcquire .worker, .call (.commitParent idx) true .worker, .lockRelease .worker])

/-- Commit::EIO_AfterGetParent (`commit.cc` lines 197-246), run on the
frontend thread after the worker half finishes: `ev_unref` and
`commit->Unref()` first, then either the error callback (null parent) or
delivery of the parent wrapper through `asyncRequestObject`. -/
def eioAfterGetParent (parent : Option Nat) : List Ev :=
  match parent with
  | none => [.refDec, .cbInvoke true .frontend]
  | some _ => [.refDec, .cbInvoke false .frontend]

/-- Outcome of Commit::GetParent: a synchronously thrown error (caller
thread), the parent handle returned inline, whether a deferred callback
was invoked and with an error or not, and the full event trace. -/
structure GetParentOutcome where
  syncError : Option Err
  result : Option Nat
  delivered : Option Bool
  trace : List Ev
deriving Repr, DecidableEq

/-- Commit::GetParent (`commit.cc` lines 147-185). The bounds check
`indexArg >= parentCount_` runs first, on the caller thread, before the
mode dispatch; failing it throws synchronously in both modes. With a
callback argument (`args.Length() > 1`) the request is deferred: `Ref()`
at submission, then the worker half, then the after half on the frontend
thread. Without a callback the lookup runs inline under the lock and a
null parent throws synchronously. -/
def getParent (w : Wrapper) (idx : Int) (hasCallback : Bool) (b : Backend) :
    GetParentOutcome :=
  if idx ≥ w.parentCount then
    ⟨some ⟨.notFound, "Parent commit index is out of bounds."⟩, none, none,
      [.throwErr .frontend]⟩
  else if hasCallback then
    let (parent, workerTr) := eioGetParent idx b
    let afterTr := eioAfterGetParent parent
    ⟨none, none, some parent.isNone, .refInc :: (workerTr ++ afterTr)⟩
  else
    let tr : List Ev :=
      [.lockAcquire .frontend, .call (.commitParent idx) true .frontend,
       .lockRelease .frontend]
    match b.commitParent idx with
    | none =>
      ⟨some ⟨.notFound, "Error getting parent."⟩, none, none,
        tr ++ [.throwErr .frontend]⟩
    | some h => ⟨none, some h, none, tr⟩

/-- Commit::loadInitData (`commit.cc` lines 61-75): acquire the repository
lock, copy id, message, author, committer and parent count out of the
backend into a `commit_data`, release the lock, return the copy. The
thread is a parameter: the load step may run on the caller thread or on a
worker thread. -/
def loadInitData (b : Backend) (t : Thread) : CommitData × List Ev :=
  (b.fields,
   [.lockAcquire t,
    .call .getId true t,
    .call .getMessage true t,
    .call .getAuthor true t,
    .call .getCommitter true t,
    .call .getParentCount true t,
    .lockRelease t])

/-- Commit::processInitData (`commit.cc` lines 312-345), run on the
frontend thread with no lock held: publishes the copied fields onto the JS
wrapper (or nulls for a new commit) and sets `parentCount_`. -/
def processInitData (w : Wrapper) (d : Option CommitData) : Wrapper × List Ev :=
  let _ := w
  match d with
  | some cd =>
    (⟨some cd.id, some cd.message, some cd.author, some cd.committer, cd.parentCount⟩,
     [.publish "id" false, .publish "message" false, .publish "author" false,
      .publish "committer" false, .publish "parentCount" false])
  | none =>
    (⟨none, none, none, none, 0⟩,
     [.publish "id" false, .publish "message" false, .publish "author" false,
      .publish "committer" false, .publish "parentCount" false])

/-- The full load step of an existing commit: `loadInitData` on thread `t`
followed by `processInitData` on the frontend, traces concatenated. -/
def loadAndProcess (w : Wrapper) (b : Backend) (t : Thread) : Wrapper × List Ev :=
  let (d, tr1) := loadInitData b t
  let (w2, tr2) := processInitData w (some d)
  (w2, tr1 ++ tr2)

/-- Repeated `addParent` calls on one wrapper, threading the wrapper state;
each call may use a different argument and observe a different backend
state. -/
def runAddParents (w : Wrapper) (calls : List (EntityArg × Backend)) : Wrapper :=
  calls.foldl (fun s c => (addParent s c.1 c.2).wrapper) w

/-- Whether an `addParent` argument resolves to a parent handle (so the
call reaches the `git_commit_add_parent` append step). -/
def resolvesParent (arg : EntityArg) (b : Backend) : Bool :=
  match arg with
  | .str s =>
    match b.oidParse s with
    | none => false
    | some oid => (b.commitLookup oid).isSome
  | .commitWrapper _ => true
  | _ => false

/-- Event classifier: a backend call. -/
def isBackendCall : Ev → Bool
  | .call _ _ _ => true
  | _ => false

/-- Whether the RepositoryLock is held at this event (meaningful for
backend calls and publications). -/
def evLockHeld : Ev → Bool
  | .call _ l _ => l
  | .publish _ l => l
  | _ => false

/-- Event classifier: a field publication onto the JS wrapper. -/
def isPublishEv : Ev → Bool
  | .publish _ _ => true
  | _ => false

/-- Event classifier: an error thrown on thread `t`. -/
def isThrowOn (t : Thread) : Ev → Bool
  | .throwErr t2 => t == t2
  | _ => false

/-- Event classifier: reference-count increment. -/
def isRefInc : Ev → Bool
  | .refInc => true
  | _ => false

/-- Event classifier: reference-count decrement. -/
def isRefDec : Ev → Bool
  | .refDec => true
  | _ => false

/-- Event classifier: completion callback invocation. -/
def isCbInvoke : Ev → Bool
  | .cbInvoke _ _ => true
  | _ => false

/-- Event classifier: lock acquisition. -/
def isLockAcquire : Ev → Bool
  | .lockAcquire _ => true
  | _ => false

/-- Event classifier: lock release. -/
def isLockRelease : Ev → Bool
  | .lockRelease _ => true
  | _ => false

/-- Event classifier: an event that runs on the worker thread. -/
def isWorkerEv : Ev → Bool
  | .call _ _ t => t == .worker
  | .lockAcquire t => t == .worker
  | .lockRelease t => t == .worker
  | .throwErr t => t == .worker
  | .cbInvoke _ t => t == .worker
  | _ => false

/-- On a backend-call event, whether the call is `git_object_write`. -/
def isObjectWrite : Ev → Bool
  | .call .objectWrite _ _ => true
  | _ => false

/-- Backend call made while the lock is held. -/
def lockedBackendCall (e : Ev) : Bool :=
  isBackendCall e && evLockHeld e

/-- Backend call made while the lock is not held. -/
def unlockedBackendCall (e : Ev) : Bool :=
  isBackendCall e && !evLockHeld e

/-- A concrete signature for test fixtures. -/
def sig0 : GitSignature := ⟨"Sam", "sam@example.test", 1286172000⟩

/-- A concrete backend fixture: one parent at index 0 resolvable or not is
controlled per fixture below. This one resolves nothing. -/
def bEmpty : Backend :=
  ⟨⟨"4b825dc642cb6eb9a060e54bf8d69288fbee4904", "initial", sig0, sig0, 1⟩,
   some "tree0", fun _ => none, fun _ => none, fun _ => none, fun _ => none,
   none, 0⟩

/-- A concrete backend fixture that resolves parent index 0, parses any
oid string to itself, finds every commit and tree, and writes
successfully. -/
def bFull : Backend :=
  ⟨⟨"4b825dc642cb6eb9a060e54bf8d69288fbee4904", "initial", sig0, sig0, 1⟩,
   some "tree0", fun i => if i = 0 then some 7 else none, fun s => some s,
   fun _ => some 3, fun _ => some 4, some "deadbeef", 0⟩

/-- A fresh, unpersisted wrapper with no fields set. -/
def wNew : Wrapper := ⟨none, none, none, none, 0⟩

/-- A wrapper with one parent and all fields set. -/
def wLoaded : Wrapper :=
  ⟨some "4b825dc642cb6eb9a060e54bf8d69288fbee4904", some "initial",
   some sig0, some sig0, 1⟩

/-- Event classifier: a `git_commit_parent` call with index `idx`. -/
def isCommitParentCall (idx : Int) : Ev → Bool
  | .call (.commitParent j) _ _ => j == idx
  | _ => false

/-- Helper: a resolving `addParent` argument increments the parent count by
exactly one. -/
theorem addParent_parentCount_of_resolves (w : Wrapper) (a : EntityArg) (b : Backend)
    (h : resolvesParent a b = true) :
    (addParent w a b).wrapper.parentCount = w.parentCount + 1 := by
  cases a with
  | str s =>
    cases hp : b.oidParse s with
    | none => simp [resolvesParent, hp] at h
    | some oid =>
      cases hl : b.commitLookup oid with
      | none => simp [resolvesParent, hp, hl] at h
      | some k => simp [addParent, hp, hl]
  | commitWrapper k => simp [addParent]
  | treeWrapper k => simp [resolvesParent] at h
  | other => simp [resolvesParent] at h

/-- Helper: iterating `addParent` over resolving calls adds the list length
to the parent count. -/
theorem runAddParents_parentCount (calls : List (EntityArg × Backend)) (w : Wrapper)
    (h : ∀ c ∈ calls, resolvesParent c.1 c.2 = true) :
    (runAddParents w calls).parentCount = w.parentCount + calls.length := by
  induction calls generalizing w with
  | nil => simp [runAddParents]
  | cons c cs ih =>
    have hc : resolvesParent c.1 c.2 = true := h c (List.mem_cons_self c cs)
    have hrest : ∀ x ∈ cs, resolvesParent x.1 x.2 = true :=
      fun x hx => h x (List.mem_cons_of_mem c hx)
    have step := addParent_parentCount_of_resolves w c.1 c.2 hc
    have := ih (addParent w c.1 c.2).wrapper hrest
    simp only [runAddParents, List.foldl_cons] at this ⊢
    rw [this, step]
    simp only [List.length_cons]
    push_cast
    omega

/-- Claim C1: Save with an absent or empty message makes no backend call
and fails with a validation error; Save with a non-empty message and
present author and committer signatures attempts exactly one
`git_object_write` call. -/
theorem save_fail_fast (w : Wrapper) (b : Backend) :
    ((w.message = none ∨ w.message = some "") →
      (∃ m, (save w b).error = some ⟨.validationFailed, m⟩) ∧
        (save w b).trace.countP isBackendCall = 0) ∧
    (∀ m a c, w.message = some m → m.length ≠ 0 → w.author = some a →
      w.committer = some c →
      (save w b).trace.countP isObjectWrite = 1) := by
  constructor
  · rintro (h | h) <;>
      simp [save, h, List.countP_cons, isBackendCall]
  · intro m a c hm hl ha hc
    cases hw : b.writeResult with
    | none =>
      simp [save, hm, hl, ha, hc, hw, List.countP_cons, isObjectWrite]
    | some oid =>
      simp [save, hm, hl, ha, hc, hw, List.countP_cons, isObjectWrite]

/-- Witness for C1 at concrete inputs: a fresh wrapper with no message
fails validation with no backend calls, and a loaded wrapper attempts
exactly one write. -/
theorem save_fail_fast_witness :
    ((∃ m, (save wNew bEmpty).error = some ⟨.validationFailed, m⟩) ∧
      (save wNew bEmpty).trace.countP isBackendCall = 0) ∧
    (save wLoaded bEmpty).trace.countP isObjectWrite = 1 := by
  refine ⟨(save_fail_fast wNew bEmpty).1 (Or.inl rfl), ?_⟩
  exact (save_fail_fast wLoaded bEmpty).2 "initial" sig0 sig0 rfl (by decide) rfl rfl

/-- Claim C4: any failed Save (validation or backend-write failure) leaves
the wrapper exactly as it was: identity and every other field unchanged. -/
theorem save_failure_leaves_wrapper (w : Wrapper) (b : Backend)
    (h : (save w b).error.isSome = true) : (save w b).wrapper = w := by
  cases hm : w.message with
  | none => simp [save, hm]
  | some m =>
    by_cases hl : m.length = 0
    · simp [save, hm, hl]
    · cases ha : w.author with
      | none => simp [save, hm, hl, ha]
      | some a =>
        cases hc : w.committer with
        | none => simp [save, hm, hl, ha, hc]
        | some c =>
          cases hw : b.writeResult with
          | none => simp [save, hm, hl, ha, hc, hw]
          | some oid => simp [save, hm, hl, ha, hc, hw] at h

/-- Witness for C4: a failing Save on a fresh wrapper leaves it equal to
itself before the call. -/
theorem save_failure_leaves_wrapper_witness : (save wNew bEmpty).wrapper = wNew :=
  save_failure_leaves_wrapper wNew bEmpty (by decide)

/-- Claim C3: after addParent succeeds N times on a wrapper, its parent
count equals its value before those calls plus N, for every backend state;
each single successful addParent increments the count by exactly one. -/
theorem addParent_locally_authoritative (w : Wrapper)
    (calls : List (EntityArg × Backend))
    (h : ∀ c ∈ calls, resolvesParent c.1 c.2 = true) :
    (runAddParents w calls).parentCount = w.parentCount + calls.length ∧
    (∀ a b, resolvesParent a b = true →
      (addParent w a b).wrapper.parentCount = w.parentCount + 1) :=
  ⟨runAddParents_parentCount calls w h,
   fun a b hr => addParent_parentCount_of_resolves w a b hr⟩

/-- Witness for C3: two successful addParent calls on a fresh wrapper give
parent count 2. -/
theorem addParent_locally_authoritative_witness :
    (runAddParents wNew
      [(EntityArg.commitWrapper 1, bEmpty), (EntityArg.commitWrapper 2, bFull)]).parentCount
      = wNew.parentCount + 2 := by
  have h := (addParent_locally_authoritative wNew
    [(EntityArg.commitWrapper 1, bEmpty), (EntityArg.commitWrapper 2, bFull)]
    (by decide)).1
  simpa using h

/-- Claim C9: when addParent reaches the `git_commit_add_parent` append
step, the call reports success and increments the count whatever the
backend append result is: the result is never inspected and an append
failure is never surfaced. -/
theorem addParent_ignores_append_result (w : Wrapper) (a : EntityArg) (b : Backend)
    (r : Int)
    (h : Ev.call .addParentCall false .frontend ∈ (addParent w a b).trace) :
    (addParent w a { b with addParentResult := r }).error = none ∧
    (addParent w a { b with addParentResult := r }).wrapper.parentCount
      = w.parentCount + 1 ∧
    (addParent w a { b with addParentResult := r }).trace = (addParent w a b).trace := by
  cases a with
  | str s =>
    cases hp : b.oidParse s with
    | none => simp [addParent, hp] at h
    | some oid =>
      cases hl : b.commitLookup oid with
      | none => simp [addParent, hp, hl] at h
      | some k => simp [addParent, hp, hl]
  | commitWrapper k => simp [addParent]
  | treeWrapper k => simp [addParent] at h
  | other => simp [addParent] at h

/-- Witness for C9: a wrapper-argument addParent reaches the append step
and succeeds with count 1 even when the backend append result is set to a
failure code. -/
theorem addParent_ignores_append_result_witness :
    (addParent wNew (EntityArg.commitWrapper 1)
      { bEmpty with addParentResult := -1 }).error = none ∧
    (addParent wNew (EntityArg.commitWrapper 1)
      { bEmpty with addParentResult := -1 }).wrapper.parentCount
      = wNew.parentCount + 1 := by
  have h := addParent_ignores_append_result wNew (EntityArg.commitWrapper 1) bEmpty (-1)
    (by decide)
  exact ⟨h.1, h.2.1⟩

/-- Claim C10: the bounds check in getParent rejects exactly the indices at
or above the parent count; a negative index passes the check and is
forwarded unchanged to the backend `git_commit_parent` call, in either
mode. -/
theorem getParent_bounds_check (w : Wrapper) (idx : Int) (hc : Bool) (b : Backend) :
    ((getParent w idx hc b).syncError
        = some ⟨.notFound, "Parent commit index is out of bounds."⟩
      ↔ idx ≥ w.parentCount) ∧
    (idx < 0 → 0 ≤ w.parentCount →
      (getParent w idx hc b).trace.any (isCommitParentCall idx) = true) := by
  constructor
  · by_cases hb : idx ≥ w.parentCount
    · simp [getParent, hb]
    · cases hcb : hc with
      | true => simp [getParent, hb]
      | false =>
        cases hp : b.commitParent idx with
        | none =>
          simp only [getParent, if_neg hb, Bool.false_eq_true, if_false, hp]
          constructor
          · intro hEq
            exact absurd (Err.mk.injEq _ _ _ _ ▸ (Option.some.injEq _ _ ▸ hEq)).2
              (by decide)
          · intro hge; exact absurd hge hb
        | some k => simp [getParent, hb, hp]
  · intro hneg hcount
    have hb : ¬ idx ≥ w.parentCount := by omega
    cases hcb : hc with
    | true =>
      simp [getParent, hb, eioGetParent, eioAfterGetParent, isCommitParentCall]
    | false =>
      cases hp : b.commitParent idx with
      | none => simp [getParent, hb, hp, isCommitParentCall]
      | some k => simp [getParent, hb, hp, isCommitParentCall]

/-- Witness for C10: index -1 on a wrapper with one parent passes the
bounds check and reaches the backend call, and index 1 is rejected as out
of bounds. -/
theorem getParent_bounds_check_witness :
    (getParent wLoaded (-1) false bEmpty).trace.any (isCommitParentCall (-1)) = true ∧
    ((getParent wLoaded 1 false bEmpty).syncError
      = some ⟨.notFound, "Parent commit index is out of bounds."⟩) := by
  refine ⟨(getParent_bounds_check wLoaded (-1) false bEmpty).2 (by decide) (by decide), ?_⟩
  exact (getParent_bounds_check wLoaded 1 false bEmpty).1.mpr (by decide)

/-- Claim C6 (amended): an index at or above the parent count is rejected
synchronously on the caller thread in both modes, before any dispatch and
with no callback invocation; for an in-bounds index whose backend
resolution fails, inline mode throws synchronously and deferred mode
delivers the error through the completion callback on the frontend thread;
no mode ever throws on the worker thread. -/
theorem getParent_error_delivery (w : Wrapper) (idx : Int) (b : Backend) :
    (idx ≥ w.parentCount →
      ∀ hc, (getParent w idx hc b).syncError.isSome = true ∧
        (getParent w idx hc b).delivered = none ∧
        (getParent w idx hc b).trace = [.throwErr .frontend]) ∧
    (idx < w.parentCount → b.commitParent idx = none →
      ((getParent w idx false b).syncError
          = some ⟨.notFound, "Error getting parent."⟩) ∧
      (getParent w idx true b).syncError = none ∧
      (getParent w idx true b).delivered = some true ∧
      ((getParent w idx true b).trace.any
        (fun e => e == Ev.cbInvoke true Thread.frontend)) = true) ∧
    (∀ hc, (getParent w idx hc b).trace.any (isThrowOn .worker) = false) := by
  refine ⟨?_, ?_, ?_⟩
  · intro hb hc
    simp [getParent, hb]
  · intro hb hp
    have hb2 : ¬ idx ≥ w.parentCount := by omega
    refine ⟨by simp [getParent, hb2, hp], ?_, ?_, ?_⟩
    · simp [getParent, hb2, eioGetParent]
    · simp [getParent, hb2, eioGetParent, hp]
    · simp [getParent, hb2, eioGetParent, eioAfterGetParent, hp]
  · intro hc
    by_cases hb : idx ≥ w.parentCount
    · simp [getParent, hb, isThrowOn]
    · cases hcb : hc with
      | true =>
        cases hp : b.commitParent idx with
        | none =>
          simp [getParent, hb, eioGetParent, eioAfterGetParent, hp, isThrowOn]
        | some k =>
          simp [getParent, hb, eioGetParent, eioAfterGetParent, hp, isThrowOn]
      | false =>
        cases hp : b.commitParent idx with
        | none => simp [getParent, hb, hp, isThrowOn]
        | some k => simp [getParent, hb, hp, isThrowOn]

/-- Witness for C6 (amended): concrete out-of-bounds rejection, concrete
deferred delivery of a resolution failure, and no worker-thread throw. -/
theorem getParent_error_delivery_witness :
    (getParent wNew 0 true bEmpty).syncError.isSome = true ∧
    (getParent wLoaded 0 true bEmpty).delivered = some true ∧
    (getParent wLoaded 0 true bEmpty).trace.any (isThrowOn .worker) = false := by
  refine ⟨((getParent_error_delivery wNew 0 bEmpty).1 (by decide) true).1, ?_, ?_⟩
  · exact ((getParent_error_delivery wLoaded 0 bEmpty).2.1 (by decide) (by decide)).2.2.1
  · exact (getParent_error_delivery wLoaded 0 bEmpty).2.2 true

/-- Counterexample for C6 as stated: a deferred getParent for a
nonexistent index (0 on a wrapper with no parents) raises its error
synchronously on the caller thread; the completion callback is never
invoked, so the error is not delivered through it. -/
theorem getParent_deferred_oob_counterexample :
    (getParent wNew 0 true bEmpty).syncError.isSome = true ∧
    (getParent wNew 0 true bEmpty).delivered = none ∧
    (getParent wNew 0 true bEmpty).trace.any isCbInvoke = false := by
  decide

/-- Claim C7 (amended): a deferred getParent that passes the bounds check
increments the wrapper reference count exactly once at submission (the
first event) and decrements it exactly once in the completion handler on
the frontend thread, after the whole worker-thread phase but before the
completion callback is invoked. -/
theorem getParent_ref_discipline (w : Wrapper) (idx : Int) (b : Backend)
    (h : idx < w.parentCount) :
    ∃ workerTr,
      (getParent w idx true b).trace
        = .refInc :: (workerTr
            ++ [.refDec, .cbInvoke (b.commitParent idx).isNone .frontend]) ∧
      workerTr.all isWorkerEv = true ∧
      (getParent w idx true b).trace.countP isRefInc = 1 ∧
      (getParent w idx true b).trace.countP isRefDec = 1 ∧
      (getParent w idx true b).trace.findIdx isRefDec
        < (getParent w idx true b).trace.findIdx isCbInvoke := by
  have hb : ¬ idx ≥ w.parentCount := by omega
  refine ⟨[.lockAcquire .worker, .call (.commitParent idx) true .worker,
           .lockRelease .worker], ?_, ?_, ?_, ?_, ?_⟩ <;>
    cases hp : b.commitParent idx <;>
      simp [getParent, hb, eioGetParent, eioAfterGetParent, hp, isWorkerEv,
        isRefInc, isRefDec, isCbInvoke, List.countP_cons, List.findIdx_cons]

/-- Witness for C7 (amended) at a concrete deferred request. -/
theorem getParent_ref_discipline_witness :
    ∃ workerTr,
      (getParent wLoaded 0 true bEmpty).trace
        = .refInc :: (workerTr
            ++ [.refDec, .cbInvoke (bEmpty.commitParent 0).isNone .frontend]) ∧
      workerTr.all isWorkerEv = true ∧
      (getParent wLoaded 0 true bEmpty).trace.countP isRefInc = 1 ∧
      (getParent wLoaded 0 true bEmpty).trace.countP isRefDec = 1 ∧
      (getParent wLoaded 0 true bEmpty).trace.findIdx isRefDec
        < (getParent wLoaded 0 true bEmpty).trace.findIdx isCbInvoke :=
  getParent_ref_discipline wLoaded 0 bEmpty (by decide)

/-- Counterexample for C7 as stated: in the deferred request below the
single reference-count decrement happens before the completion callback is
invoked (EIO_AfterGetParent calls Unref before triggering the callback),
not after the completion has been delivered. -/
theorem getParent_unref_before_delivery_counterexample :
    (getParent wLoaded 0 true bEmpty).trace.countP isRefDec = 1 ∧
    (getParent wLoaded 0 true bEmpty).trace.findIdx isRefDec
      < (getParent wLoaded 0 true bEmpty).trace.findIdx isCbInvoke := by
  decide

/-- Claim C8: the load step takes the lock once, copies identity, message,
author, committer and parent count out of the backend inside that single
locked section (five locked backend reads, no backend access outside it),
releases the lock, and only then publishes the five fields onto the
wrapper, every publication with the lock not held; the published fields
are the copied backend fields. -/
theorem load_publish_protocol (w : Wrapper) (b : Backend) (t : Thread) :
    ∃ reads pubs,
      (loadAndProcess w b t).2
        = .lockAcquire t :: (reads ++ .lockRelease t :: pubs) ∧
      reads.all lockedBackendCall = true ∧
      reads.countP isBackendCall = 5 ∧
      pubs.all (fun e => isPublishEv e && !evLockHeld e) = true ∧
      pubs.countP isPublishEv = 5 ∧
      (loadAndProcess w b t).2.countP isLockAcquire = 1 ∧
      (loadAndProcess w b t).2.countP isLockRelease = 1 ∧
      (loadAndProcess w b t).1
        = ⟨some b.fields.id, some b.fields.message, some b.fields.author,
           some b.fields.committer, b.fields.parentCount⟩ := by
  refine ⟨[.call .getId true t, .call .getMessage true t, .call .getAuthor true t,
           .call .getCommitter true t, .call .getParentCount true t],
          [.publish "id" false, .publish "message" false, .publish "author" false,
           .publish "committer" false, .publish "parentCount" false],
          ?_, ?_, ?_, ?_, ?_, ?_, ?_, ?_⟩ <;> rfl

/-- Counterexample for C2 as stated: getTree makes its backend call
(`git_commit_tree`) with the RepositoryLock not held. -/
theorem getTree_unlocked_counterexample :
    (getTree wLoaded bEmpty).2.any unlockedBackendCall = true := by
  decide

/-- Claim C2 (amended): backend calls made by loadInitData and by both
modes of getParent happen with RepositoryLock held, but getTree, save,
addParent and setTree make all their backend calls without holding the
lock (and getTree and a valid save do make such calls), so the lock does
not serialize every backend call. -/
theorem lock_discipline (w : Wrapper) (b : Backend) (idx : Int) (t : Thread)
    (arg : EntityArg) (hc : Bool) :
    (loadInitData b t).2.all (fun e => !isBackendCall e || evLockHeld e) = true ∧
    (getParent w idx hc b).trace.all (fun e => !isBackendCall e || evLockHeld e)
      = true ∧
    ((getTree w b).2.all unlockedBackendCall = true ∧
      (getTree w b).2.countP isBackendCall = 1) ∧
    (save w b).trace.all (fun e => !isBackendCall e || !evLockHeld e) = true ∧
    (addParent w arg b).trace.all (fun e => !isBackendCall e || !evLockHeld e)
      = true ∧
    (setTree w arg b).trace.all (fun e => !isBackendCall e || !evLockHeld e)
      = true ∧
    0 < (save wLoaded b).trace.countP isBackendCall := by
  refine ⟨?_, ?_, ?_, ?_, ?_, ?_, ?_⟩
  · simp [loadInitData, isBackendCall, evLockHeld]
  · by_cases hb : idx ≥ w.parentCount
    · simp [getParent, hb, isBackendCall]
    · cases hcb : hc <;> cases hp : b.commitParent idx <;>
        simp [getParent, hb, hp, eioGetParent, eioAfterGetParent, isBackendCall,
          evLockHeld]
  · exact ⟨by simp [getTree, unlockedBackendCall, isBackendCall, evLockHeld],
      by simp [getTree, List.countP_cons, isBackendCall]⟩
  · cases hm : w.message with
    | none => simp [save, hm, isBackendCall]
    | some m =>
      by_cases hl : m.length = 0
      · simp [save, hm, hl, isBackendCall]
      · cases ha : w.author <;> cases hcm : w.committer <;>
          cases hw : b.writeResult <;>
            simp [save, hm, hl, ha, hcm, hw, isBackendCall, evLockHeld]
  · cases arg with
    | str s =>
      cases hp : b.oidParse s with
      | none => simp [addParent, hp, isBackendCall, evLockHeld]
      | some oid =>
        cases hl : b.commitLookup oid <;>
          simp [addParent, hp, hl, isBackendCall, evLockHeld]
    | commitWrapper k => simp [addParent, isBackendCall, evLockHeld]
    | treeWrapper k => simp [addParent, isBackendCall]
    | other => simp [addParent, isBackendCall]
  · cases arg with
    | str s =>
      cases hp : b.oidParse s with
      | none => simp [setTree, hp, isBackendCall, evLockHeld]
      | some oid =>
        cases hl : b.treeLookup oid <;>
          simp [setTree, hp, hl, isBackendCall, evLockHeld]
    | commitWrapper k => simp [setTree, isBackendCall, evLockHeld]
    | treeWrapper k => simp [setTree, isBackendCall, evLockHeld]
    | other => simp [setTree, isBackendCall, evLockHeld]
  · cases hw : b.writeResult <;>
      simp [save, wLoaded, hw, List.countP_cons, isBackendCall,
        (by decide : ¬ ("initial".length = 0))]

/-- Claim C5 at the failing input: setTree with an argument of the wrong
kind throws nothing and still performs the `git_commit_set_tree` backend
mutation with its uninitialized tree operand, while addParent with the
same kind of argument throws "Invalid argument." with no backend call. -/
theorem setTree_wrong_kind_falls_through (w : Wrapper) (b : Backend) :
    (setTree w .other b).error = none ∧
    (setTree w .other b).trace = [.call (.setTreeCall false) false .frontend] ∧
    (addParent w .other b).error = some ⟨.invalidArgument, "Invalid argument."⟩ ∧
    (addParent w .other b).trace.countP isBackendCall = 0 := by
  refine ⟨rfl, rfl, rfl, ?_⟩
  simp [addParent, List.countP_cons, isBackendCall]

end Gitteh
